import Mathlib

/-!
Verification of the gamesense data-ingestion pipeline
(`src/data-ingestion/ingestion.py`, class `DataIngestionService`).

The Python service reconciles provider records into a MongoDB document
store and a Neo4j graph store.  This file gives a shallow embedding of
the record shapes, the document projections, the store-update semantics
of the `update_one` calls (including `$set` / `$setOnInsert` / `$inc`),
and the graph projection, and proves or refutes the specified
properties.

Modelling conventions:
* Instants (`datetime` values) are modelled as `Nat`; each call of a
  save operation takes a single `now : Nat` standing for the
  `datetime.now()` calls made during that invocation.
* A provider field that is absent (or JSON `null`) is an `Option` that
  is `none`; Python truthiness tests (`if game_data.get('rating')`) are
  embedded explicitly (`none` and `some 0` are falsy).
* `datetime.fromisoformat` / `datetime.fromtimestamp` are abstracted to
  the parsed instant itself: raw timestamp strings arrive pre-parsed as
  `Option Nat` (a parse failure is the `none` case); no claim exercises
  the textual parser.
* Provider ratings are embedded as rationals (`ℚ`), standing for the
  provider's numeric rating values.
-/

/-! ## Raw provider record shapes (IGDB game payloads) -/

/-- An IGDB `involved_companies[i].company` object. -/
structure Company where
  name : Option String
deriving DecidableEq

/-- An IGDB `involved_companies` entry; the `company` key may be absent. -/
structure InvolvedCompany where
  company : Option Company
deriving DecidableEq

/-- An IGDB `cover` object; the `url` key may be absent. -/
structure CoverObj where
  url : Option String
deriving DecidableEq

/-- An IGDB `external_games` entry (category 1 is Steam). -/
structure ExternalGame where
  category : Option Nat
  uid : Option String
deriving DecidableEq

/-- A raw IGDB game record as read by `save_game`.  `genres` and
`platforms` hold the `name` fields of the corresponding IGDB objects. -/
structure GameData where
  id : Nat
  name : Option String
  summary : Option String
  cover : Option CoverObj
  genres : List String
  platforms : List String
  first_release_date : Option Nat
  rating : Option ℚ
  involved_companies : List InvolvedCompany
  external_games : List ExternalGame
deriving DecidableEq

/-- Embeds `extract_steam_id`: first `external_games` entry whose category is 1
decides the result; its `uid` (possibly absent) is returned. -/
def extract_steam_id (g : GameData) : Option String :=
  match g.external_games.find? (fun e => e.category == some 1) with
  | some e => e.uid
  | none => none

/-- Embeds `extract_developer`: name of the first involved company, with
`'Unknown'` defaults at each missing level. -/
def extract_developer (g : GameData) : String :=
  match g.involved_companies with
  | [] => "Unknown"
  | c :: _ => ((c.company.getD ⟨none⟩).name.getD "Unknown")

/-- Embeds `get_cover_url`: rewrite the thumbnail segment to the full-size
segment and prefix the scheme; `none` when cover or url is absent. -/
def get_cover_url (g : GameData) : Option String :=
  match g.cover with
  | some c =>
    match c.url with
    | some u => some ("https:" ++ u.replace "t_thumb" "t_cover_big")
    | none => none
  | none => none

/-! ## The game document and the games collection -/

/-- The `game_doc` dictionary built by `save_game`: exactly the fields
passed under `$set` (so `createdAt` is not among them). -/
structure GameDoc where
  _id : String
  title : String
  description : String
  releaseDate : Option Nat
  genres : List String
  platforms : List String
  developer : String
  avgScore : Option ℚ
  coverImageUrl : Option String
  steamId : Option String
  totalReviews : Int
  updatedAt : Nat
deriving DecidableEq

/-- Building `game_doc` from a raw record (`save_game`, lines 112-127). -/
def mk_game_doc (g : GameData) (now : Nat) : GameDoc :=
  { _id := toString g.id
    title := g.name.getD "Unknown"
    description := g.summary.getD ""
    releaseDate :=
      match g.first_release_date with
      | some d => if d ≠ 0 then some d else none
      | none => none
    genres := g.genres
    platforms := g.platforms
    developer := extract_developer g
    avgScore :=
      match g.rating with
      | some r => if r ≠ 0 then some (r / 10) else none
      | none => none
    coverImageUrl := get_cover_url g
    steamId := extract_steam_id g
    totalReviews := 0
    updatedAt := now }

/-- A stored game document: the mutable `$set` payload plus the
`createdAt` stamp that `$setOnInsert` wrote at first insert. -/
structure StoredGame where
  doc : GameDoc
  createdAt : Nat
deriving DecidableEq

/-- The `games` collection, keyed by `_id`. -/
abbrev GameStore := String → Option StoredGame

def empty_game_store : GameStore := fun _ => none

/-- Embeds `save_game`'s MongoDB effect:
`update_one({'_id': id}, {'$set': game_doc, '$setOnInsert': {'createdAt': now}}, upsert=True)`.
All `game_doc` fields are overwritten; `createdAt` is written only when
the document is newly created. -/
def save_game (store : GameStore) (g : GameData) (now : Nat) : GameStore :=
  let d := mk_game_doc g now
  fun key =>
    if key = d._id then
      some { doc := d
             createdAt :=
               match store d._id with
               | some old => old.createdAt
               | none => now }
    else store key

/-- Embeds `ingest_steam_reviews`'s per-game stats update:
`update_one({'_id': game_id}, {'$inc': {'totalReviews': n}})` (no
upsert: a missing document is left missing). -/
def inc_game_reviews (store : GameStore) (gameId : String) (n : Nat) : GameStore :=
  fun key =>
    if key = gameId then
      (store key).map (fun s => { s with doc := { s.doc with totalReviews := s.doc.totalReviews + n } })
    else store key

/-! ## Status normalization -/

/-- Python `str.lower()` (ASCII case folding, character by character).
Lean's own `String.toLower` is defined by a well-founded loop that the
kernel cannot evaluate, so the equivalent map over the character list is
used instead. -/
def lowerStr (s : String) : String :=
  String.mk (s.data.map Char.toLower)

/-- The `mapping` dictionary of `map_status`. -/
def statusMapping : List (String × String) :=
  [("running", "LIVE"), ("finished", "FINISHED"), ("not_started", "SCHEDULED"),
   ("canceled", "CANCELLED"), ("postponed", "POSTPONED")]

/-- Python `dict.get(key, default)` over an association list. -/
def dictGetD (m : List (String × String)) (k d : String) : String :=
  match m.find? (fun p => p.1 == k) with
  | some p => p.2
  | none => d

/-- Embeds `map_status`: `mapping.get(status.lower(), 'SCHEDULED')`. -/
def map_status (status : String) : String :=
  dictGetD statusMapping (lowerStr status) "SCHEDULED"

/-- The fixed lookup table of the spec, written as a case split on the
lower-cased input with default `SCHEDULED`. -/
def map_status_table (raw : String) : String :=
  if lowerStr raw = "running" then "LIVE"
  else if lowerStr raw = "finished" then "FINISHED"
  else if lowerStr raw = "not_started" then "SCHEDULED"
  else if lowerStr raw = "canceled" then "CANCELLED"
  else if lowerStr raw = "postponed" then "POSTPONED"
  else "SCHEDULED"

/-- A sample IGDB record, matching the scenario of the spec. -/
def sampleGame : GameData :=
  { id := 42
    name := some "Foo"
    summary := none
    cover := none
    genres := []
    platforms := []
    first_release_date := some 1609459200
    rating := some 85
    involved_companies := []
    external_games := [] }

example : map_status "RUNNING" = "LIVE" := by decide
example : map_status "paused" = "SCHEDULED" := by decide
example : (mk_game_doc sampleGame 7)._id = "42" ∧ (mk_game_doc sampleGame 7).avgScore = some (17/2) := by
  exact ⟨rfl, by norm_num [mk_game_doc, sampleGame]⟩

/-! ## Raw provider record shapes (PandaScore match payloads) -/

/-- A PandaScore `opponents[i].opponent` team object.  In `save_match`
each element of the provider's `opponents` array is the value of its
`opponent` key, so the list is embedded already unwrapped. -/
structure TeamObj where
  id : Option Nat
  name : Option String
deriving DecidableEq

/-- A PandaScore `tournament` object.  `save_match` and
`sync_tournament_graph` read only `id` and `name`; the `league`,
`series` and `stage` segments sent by the provider are carried along
untouched so that the stored name can be compared with the composed
name the spec describes. -/
structure TournamentObj where
  id : Nat
  name : Option String
  league : Option String
  series : Option String
  stage : Option String
deriving DecidableEq

/-- A PandaScore `videogame` object; the `name` key may be absent
(direct subscript access raises in that case). -/
structure VideogameObj where
  name : Option String
deriving DecidableEq

/-- A raw PandaScore match record as read by `save_match`.  The
`scheduled_at` / `begin_at` strings arrive pre-parsed (`parse_datetime`
output; a missing value or parse failure is `none`). -/
structure MatchData where
  id : Nat
  tournament : Option TournamentObj
  opponents : List TeamObj
  status : Option String
  winner_id : Option Nat
  videogame : Option VideogameObj
  scheduled_at : Option Nat
  begin_at : Option Nat
deriving DecidableEq

/-! ## The match document and the matches collection -/

/-- The `match_doc` dictionary built by `save_match`.  Unlike
`game_doc`, it carries `createdAt` itself: the whole dictionary goes
under `$set`, with no `$setOnInsert` clause. -/
structure MatchDoc where
  _id : String
  tournamentId : Option String
  tournamentName : String
  teamAId : String
  teamAName : String
  teamBId : String
  teamBName : String
  status : String
  winnerId : Option String
  gameTitle : String
  scheduledAt : Option Nat
  startedAt : Option Nat
  createdAt : Nat
  updatedAt : Nat
deriving DecidableEq

/-- Building `match_doc` (`save_match`, lines 199-218).  `none` is the
exception path: a present `tournament` without a `name` key, or a
present `videogame` without a `name` key, raises a `KeyError` that
`save_match`'s handler catches, so nothing is written for the record. -/
def mk_match_doc (m : MatchData) (now : Nat) : Option MatchDoc :=
  let team_a := (m.opponents.get? 0).getD ⟨none, none⟩
  let team_b := (m.opponents.get? 1).getD ⟨none, none⟩
  match (match m.tournament with
         | some t => t.name
         | none => some "Unknown"),
        (match m.videogame with
         | some v => v.name
         | none => some "Unknown") with
  | some tournamentName, some gameTitle =>
    some
    { _id := toString m.id
      tournamentId := m.tournament.map (fun t => toString t.id)
      tournamentName := tournamentName
      teamAId := match team_a.id with | some i => toString i | none => ""
      teamAName := team_a.name.getD "TBD"
      teamBId := match team_b.id with | some i => toString i | none => ""
      teamBName := team_b.name.getD "TBD"
      status := map_status (m.status.getD "not_started")
      winnerId := match m.winner_id with
        | some w => if w ≠ 0 then some (toString w) else none
        | none => none
      gameTitle := gameTitle
      scheduledAt := m.scheduled_at
      startedAt := m.begin_at
      createdAt := now
      updatedAt := now }
  | _, _ => none

/-- The `matches` collection, keyed by `_id`. -/
abbrev MatchStore := String → Option MatchDoc

def empty_match_store : MatchStore := fun _ => none

/-- Embeds `save_match`'s MongoDB effect:
`update_one({'_id': id}, {'$set': match_doc}, upsert=True)` — every
field of `match_doc`, `createdAt` included, is overwritten. -/
def save_match_docstore (store : MatchStore) (m : MatchData) (now : Nat) : MatchStore :=
  match mk_match_doc m now with
  | none => store
  | some d => fun key => if key = d._id then some d else store key

/-! ## The graph store -/

/-- A Neo4j `Game` node after `save_game`'s `MERGE`/`SET`. -/
structure GameNode where
  title : String
  genres : List String
  createdAt : Nat
deriving DecidableEq

/-- A Neo4j `Tournament` node. -/
structure TournamentNode where
  name : String
  gameTitle : String
deriving DecidableEq

/-- A Neo4j `Team` node. -/
structure TeamNode where
  name : String
  gameTitle : String
deriving DecidableEq

/-- The Neo4j state: nodes keyed by their id property, and the set of
`COMPETES_IN` edges as (teamId, tournamentId) pairs. -/
structure GraphState where
  gameNodes : String → Option GameNode
  tournamentNodes : String → Option TournamentNode
  teamNodes : String → Option TeamNode
  competesIn : List (String × String)

def empty_graph : GraphState :=
  { gameNodes := fun _ => none
    tournamentNodes := fun _ => none
    teamNodes := fun _ => none
    competesIn := [] }

/-- Cypher `MERGE` of an edge: add it unless it is already present. -/
def merge_edge (l : List (String × String)) (e : String × String) : List (String × String) :=
  if e ∈ l then l else e :: l

/-- Embeds `save_game`'s Neo4j effect: `MERGE (g:Game {gameId}) SET title,
genres, createdAt` (the node is overwritten with fresh properties). -/
def merge_game_node (g : GraphState) (gameId title : String) (genres : List String) (now : Nat) : GraphState :=
  { g with gameNodes := fun k => if k = gameId then some ⟨title, genres, now⟩ else g.gameNodes k }

/-- Python truthiness of `team.get('id')`: absent (or null) and 0 are
falsy. -/
def idTruthy : Option Nat → Bool
  | none => false
  | some n => n != 0

/-- Embeds `sync_tournament_graph`: merge the `Tournament` node, then for each
opponent with a truthy id merge its `Team` node and the
`COMPETES_IN` edge to the tournament just merged.  An absent
`videogame` (or one without `name`) raises while the first query's
parameters are built, before anything runs; the handler inside
`sync_tournament_graph` catches it, so the graph is untouched.  The
function is a no-op when `tournament` is absent because `save_match`
only calls it when the key is present.  The per-opponent loop body is
split out as `sync_team_step` (the queries run with `vn` bound to the
videogame name and `tid` to the tournament id). -/
def sync_team_step (vn tid : String) (acc : GraphState) (team : TeamObj) : GraphState :=
  if idTruthy team.id then
    { acc with
      teamNodes := fun k =>
        if k = toString (team.id.getD 0) then some ⟨team.name.getD "Unknown", vn⟩ else acc.teamNodes k
      competesIn := merge_edge acc.competesIn (toString (team.id.getD 0), tid) }
  else acc

def sync_tournament_graph (g : GraphState) (m : MatchData) : GraphState :=
  match m.tournament, m.videogame with
  | some t, some v =>
    match v.name with
    | some vn =>
      let tid := toString t.id
      let g1 := { g with tournamentNodes :=
        fun k => if k = tid then some ⟨t.name.getD "Unknown", vn⟩ else g.tournamentNodes k }
      m.opponents.foldl (sync_team_step vn tid) g1
    | none => g
  | _, _ => g

/-! ## Combined pipeline state and the reconciler -/

/-- Both stores together. -/
structure SysState where
  games : GameStore
  matchDocs : MatchStore
  graph : GraphState

/-- The full effect of one `save_game` call.  The MongoDB upsert comes
first; the Neo4j write either succeeds (`graphOk = true`) or raises and
is caught by `save_game`'s handler, leaving the graph unchanged — the
document write is never rolled back. -/
def save_game_full (st : SysState) (g : GameData) (now : Nat) (graphOk : Bool) : SysState :=
  let d := mk_game_doc g now
  { games := save_game st.games g now
    matchDocs := st.matchDocs
    graph := if graphOk then merge_game_node st.graph d._id d.title d.genres now else st.graph }

/-- The full effect of one `save_match` call.  The document upsert
happens first; `sync_tournament_graph` is reached only when the
document build succeeded and the record has a `tournament` key, and a
raising graph store (`graphOk = false`) is caught inside
`sync_tournament_graph`, leaving the graph unchanged. -/
def save_match_full (st : SysState) (m : MatchData) (now : Nat) (graphOk : Bool) : SysState :=
  { games := st.games
    matchDocs := save_match_docstore st.matchDocs m now
    graph :=
      if graphOk && m.tournament.isSome && (mk_match_doc m now).isSome then
        sync_tournament_graph st.graph m
      else st.graph }

/-- One record of an ingestion batch. -/
inductive IngestRecord where
  | game : GameData → IngestRecord
  | esports : MatchData → IngestRecord

/-- One reconciliation step; `now` is the wall-clock instant of the
call. -/
def ingest_step (st : SysState) (r : IngestRecord × Nat) (graphOk : Bool) : SysState :=
  match r.1 with
  | .game g => save_game_full st g r.2 graphOk
  | .esports m => save_match_full st m r.2 graphOk

/-- A whole batch, processed record by record; each record carries its
own ingestion instant.  Per-record exceptions are caught inside the
save functions, so the fold never aborts. -/
def run_batch (st : SysState) (batch : List (IngestRecord × Nat)) (graphOk : Bool) : SysState :=
  batch.foldl (fun s r => ingest_step s r graphOk) st

/-! ## Sentiment scoring -/

/-- The `positive` keyword list of `analyze_sentiment`. -/
def positive_words : List String :=
  ["good", "great", "amazing", "love", "best", "fun", "excellent", "masterpiece"]

/-- The `negative` keyword list of `analyze_sentiment`. -/
def negative_words : List String :=
  ["bad", "worst", "boring", "hate", "trash", "broken", "buggy", "awful"]

/-- Character-list prefix test (needle is a prefix of hay). -/
def prefixChars : List Char → List Char → Bool
  | [], _ => true
  | _ :: _, [] => false
  | a :: as, b :: bs => a == b && prefixChars as bs

/-- Substring occurrence over character lists. -/
def substrOccurs (needle : List Char) : List Char → Bool
  | [] => needle.isEmpty
  | c :: rest => prefixChars needle (c :: rest) || substrOccurs needle rest

/-- Python's `w in s` substring test for strings. -/
def str_contains (hay needle : String) : Bool :=
  substrOccurs needle.data hay.data

/-- Embeds `analyze_sentiment`: start at 0, add 0.2 per positive
keyword contained in the lower-cased text, subtract 0.2 per negative
keyword, clamp with `max(min(score, 1.0), -1.0)`. -/
def analyze_sentiment (text : String) : ℚ :=
  let tl := lowerStr text
  let s1 := positive_words.foldl (fun acc w => if str_contains tl w then acc + 2/10 else acc) (0 : ℚ)
  let s2 := negative_words.foldl (fun acc w => if str_contains tl w then acc - 2/10 else acc) s1
  max (min s2 1) (-1)

/-- Number of keywords of `ws` occurring in the lower-cased text. -/
def matched_count (ws : List String) (tl : String) : Nat :=
  (ws.filter (fun w => str_contains tl w)).length

/-! ## Game-store pipeline operations (review-count claims) -/

/-- The two pipeline operations that touch a game document: a
(re-)ingestion by `save_game` and the `$inc {'totalReviews': n}` stats
update at the end of a review fetch. -/
inductive GamePipelineOp where
  | save : GameData → Nat → GamePipelineOp
  | incReviews : String → Nat → GamePipelineOp

def apply_game_op (store : GameStore) : GamePipelineOp → GameStore
  | .save g now => save_game store g now
  | .incReviews gid n => inc_game_reviews store gid n

def run_game_ops (store : GameStore) (ops : List GamePipelineOp) : GameStore :=
  ops.foldl apply_game_op store

/-! ## Fallback synthesizer (modelled from the spec) -/

/-- Modelled from the spec: the fallback synthesizer of section 4.4 is
not among the repository's source files (only the ingestion service
and a load-testing script are), so the global finished-match floor is
modelled from the spec's words.  Counts the FINISHED matches in the
match collection (the collection is carried as the list of its
documents so that it can be counted). -/
def countFinished (store : List MatchDoc) : Nat :=
  (store.filter (fun d => d.status == "FINISHED")).length

/-- Modelled from the spec: length of the longest `_id` among the
pre-existing documents; synthetic ids are made strictly longer, which
realizes the spec's requirement that synthetic ids avoid collision
with real ids (the spec fixes no concrete id scheme for synthetic
matches). -/
def maxIdLen (store : List MatchDoc) : Nat :=
  store.foldr (fun d acc => max d._id.length acc) 0

/-- Modelled from the spec: the "small fixed roster of well-known
teams" (id, display name). -/
def synthRoster : List (String × String) :=
  [("syn-t1", "T1"), ("syn-g2", "G2 Esports"), ("syn-fnc", "Fnatic"), ("syn-navi", "Natus Vincere")]

/-- Modelled from the spec: id of the k-th synthetic match, distinct
from every pre-existing id (strictly longer) and from every other
synthetic id (pairwise distinct lengths). -/
def mk_synth_id (store : List MatchDoc) (k : Nat) : String :=
  String.mk (List.replicate (maxIdLen store + 1 + k) 's')

/-- Modelled from the spec: the k-th synthetic FINISHED match between
two roster teams, with a randomly chosen winner among the two
participants (`rand`) and a randomized past instant within a bounded
30-day historical window (`randInstant`). -/
def mk_synth_match (store : List MatchDoc) (rand : Nat → Bool) (randInstant : Nat → Nat)
    (now k : Nat) : MatchDoc :=
  let a := synthRoster.getD (k % synthRoster.length) ("", "")
  let b := synthRoster.getD ((k + 1) % synthRoster.length) ("", "")
  let instant := now - 1 - randInstant k % 2592000
  { _id := mk_synth_id store k
    tournamentId := none
    tournamentName := "SYNTHETIC"
    teamAId := a.1
    teamAName := a.2
    teamBId := b.1
    teamBName := b.2
    status := "FINISHED"
    winnerId := some (if rand k then a.1 else b.1)
    gameTitle := "Synthetic"
    scheduledAt := some instant
    startedAt := some instant
    createdAt := now
    updatedAt := now }

/-- Modelled from the spec: `ensure_minimum(match, minimum)` — if fewer
than `minimum` FINISHED matches exist store-wide, synthesize enough
matches to reach the floor; otherwise do nothing. -/
def ensure_minimum_matches (store : List MatchDoc) (minimum : Nat) (rand : Nat → Bool)
    (randInstant : Nat → Nat) (now : Nat) : List MatchDoc :=
  if countFinished store < minimum then
    store ++ (List.range (minimum - countFinished store)).map (mk_synth_match store rand randInstant now)
  else store

/-! ## Concrete example records used by witnesses and counterexamples -/

/-- The tournament name composition described by the spec: league,
series and stage segments, empty segments dropped, joined with `-`. -/
def composed_tournament_name (league series stage : String) : String :=
  String.intercalate "-" (([league, series, stage]).filter (fun seg => seg != ""))

/-- A match document with its `updatedAt` stamp masked out, for
state comparison up to updatedAt-style fields. -/
def match_doc_nontime (d : MatchDoc) : MatchDoc :=
  { d with updatedAt := 0 }

/-- A minimal well-formed match record (id 7). -/
def mEx1 : MatchData :=
  { id := 7
    tournament := none
    opponents := []
    status := none
    winner_id := none
    videogame := none
    scheduled_at := none
    begin_at := none }

/-- A minimal well-formed match record (id 8). -/
def mEx2 : MatchData :=
  { id := 8
    tournament := none
    opponents := []
    status := some "finished"
    winner_id := none
    videogame := none
    scheduled_at := none
    begin_at := none }

/-- A minimal game record (id 1, no rating). -/
def gEx1 : GameData :=
  { id := 1
    name := some "G"
    summary := none
    cover := none
    genres := []
    platforms := []
    first_release_date := none
    rating := none
    involved_companies := []
    external_games := [] }

/-- A minimal game record (id 3, no rating), for the review-count
counterexample. -/
def gEx6 : GameData :=
  { id := 3
    name := some "H"
    summary := none
    cover := none
    genres := []
    platforms := []
    first_release_date := none
    rating := none
    involved_companies := []
    external_games := [] }

/-- A tournament object carrying the league / series / stage segments
the provider sends alongside the flat `name`. -/
def tEx7 : TournamentObj :=
  { id := 9
    name := some "Worlds Knockout"
    league := some "LEC"
    series := some "Summer"
    stage := some "Finals" }

/-- A match record in tournament `tEx7`. -/
def mEx7 : MatchData :=
  { id := 70
    tournament := some tEx7
    opponents := []
    status := some "finished"
    winner_id := none
    videogame := some ⟨some "LoL"⟩
    scheduled_at := none
    begin_at := none }

/-- A match record with a single (resolvable) opponent. -/
def mEx8 : MatchData :=
  { id := 80
    tournament := none
    opponents := [⟨some 5, some "Alpha"⟩]
    status := none
    winner_id := none
    videogame := none
    scheduled_at := none
    begin_at := none }

/-- The document `save_match` builds for `mEx8` at instant 3. -/
def dEx8 : MatchDoc :=
  { _id := "80"
    tournamentId := none
    tournamentName := "Unknown"
    teamAId := "5"
    teamAName := "Alpha"
    teamBId := ""
    teamBName := "TBD"
    status := "SCHEDULED"
    winnerId := none
    gameTitle := "Unknown"
    scheduledAt := none
    startedAt := none
    createdAt := 3
    updatedAt := 3 }

example : mk_match_doc mEx8 3 = some dEx8 := by decide

/-! ## Theorems -/

lemma dictGetD_status (t : String) :
    dictGetD statusMapping t "SCHEDULED" =
      (if t = "running" then "LIVE"
       else if t = "finished" then "FINISHED"
       else if t = "not_started" then "SCHEDULED"
       else if t = "canceled" then "CANCELLED"
       else if t = "postponed" then "POSTPONED"
       else "SCHEDULED") := by
  by_cases h1 : t = "running"
  · subst h1; decide
  by_cases h2 : t = "finished"
  · subst h2; decide
  by_cases h3 : t = "not_started"
  · subst h3; decide
  by_cases h4 : t = "canceled"
  · subst h4; decide
  by_cases h5 : t = "postponed"
  · subst h5; decide
  have e1 : (("running" : String) == t) = false := beq_eq_false_iff_ne.mpr (Ne.symm h1)
  have e2 : (("finished" : String) == t) = false := beq_eq_false_iff_ne.mpr (Ne.symm h2)
  have e3 : (("not_started" : String) == t) = false := beq_eq_false_iff_ne.mpr (Ne.symm h3)
  have e4 : (("canceled" : String) == t) = false := beq_eq_false_iff_ne.mpr (Ne.symm h4)
  have e5 : (("postponed" : String) == t) = false := beq_eq_false_iff_ne.mpr (Ne.symm h5)
  simp [dictGetD, statusMapping, List.find?, e1, e2, e3, e4, e5, h1, h2, h3, h4, h5]

/-- Claim C5: status normalization is the case-insensitive lookup in
the fixed table {running→LIVE, finished→FINISHED,
not_started→SCHEDULED, canceled→CANCELLED, postponed→POSTPONED}, every
unmapped input (e.g. "paused") defaults to SCHEDULED, and the function
is total on strings (it is a Lean function into `String`, so it raises
on no input). -/
theorem map_status_table_conform :
    (∀ raw : String, map_status raw = map_status_table raw)
    ∧ map_status "paused" = "SCHEDULED" := by
  constructor
  · intro raw
    have h := dictGetD_status (lowerStr raw)
    simpa [map_status, map_status_table] using h
  · decide

/-- Claim C10: the stored `avgScore` is null exactly when the provider
rating is absent or 0, and otherwise equals the rating divided by
10. -/
theorem avg_score_null_iff (g : GameData) (now : Nat) :
    ((mk_game_doc g now).avgScore = none ↔ g.rating = none ∨ g.rating = some 0)
    ∧ (∀ r : ℚ, g.rating = some r → r ≠ 0 → (mk_game_doc g now).avgScore = some (r / 10)) := by
  constructor
  · cases hr : g.rating with
    | none => simp [mk_game_doc, hr]
    | some r =>
      by_cases h : r = 0
      · subst h; simp [mk_game_doc, hr]
      · simp [mk_game_doc, hr, h]
  · intro r hr hne
    simp [mk_game_doc, hr, hne]

/-- Witness for C10 at the spec's scenario record (rating 85 →
avgScore 8.5). -/
theorem avg_score_null_iff_witness :
    sampleGame.rating = some 85 ∧ (85 : ℚ) ≠ 0
    ∧ (mk_game_doc sampleGame 7).avgScore = some (17 / 2) := by
  refine ⟨rfl, by norm_num, ?_⟩
  have h := (avg_score_null_iff sampleGame 7).2 85 rfl (by norm_num)
  rw [h]; norm_num

/-- Claim C1 (code bug): `save_game` stamps `createdAt` only on insert
(`$setOnInsert`), but `save_match` carries `createdAt` inside the
`$set` document, so a second reconciliation of the same match id
overwrites `createdAt` with the new wall-clock instant: after saves at
instants 1 and 2 the game document still shows `createdAt = 1` while
the match document shows `createdAt = 2`. -/
theorem save_match_overwrites_createdAt :
    ((save_game (save_game empty_game_store gEx1 1) gEx1 2) "1").map StoredGame.createdAt = some 1
    ∧ ((save_match_docstore empty_match_store mEx1 1) "7").map MatchDoc.createdAt = some 1
    ∧ ((save_match_docstore (save_match_docstore empty_match_store mEx1 1) mEx1 2) "7").map
        MatchDoc.createdAt = some 2 := by
  decide

/-- Claim C2 (code bug): reconciling the same match record twice does
not leave the document store in the once-reconciled state even after
masking the `updatedAt` stamp, because `createdAt` is rewritten by the
second `$set`; the stored documents after one and after two saves of
`mEx2` differ in `createdAt` (1 vs 2) and in nothing but timestamp
fields. -/
theorem save_match_not_idempotent :
    ((save_match_docstore (save_match_docstore empty_match_store mEx2 1) mEx2 2) "8").map match_doc_nontime
      ≠ ((save_match_docstore empty_match_store mEx2 1) "8").map match_doc_nontime
    ∧ ((save_match_docstore (save_match_docstore empty_match_store mEx2 1) mEx2 2) "8").map
        MatchDoc.createdAt = some 2
    ∧ ((save_match_docstore empty_match_store mEx2 1) "8").map MatchDoc.createdAt = some 1 := by
  decide

lemma foldl_add_matched (c : ℚ) (tl : String) :
    ∀ (ws : List String) (init : ℚ),
      ws.foldl (fun acc w => if str_contains tl w then acc + c else acc) init
        = init + (matched_count ws tl : ℚ) * c := by
  intro ws
  induction ws with
  | nil => intro init; simp [matched_count]
  | cons w rest ih =>
    intro init
    cases hb : str_contains tl w with
    | false => simp [hb, matched_count, List.filter_cons, ih, matched_count]
    | true =>
      simp only [List.foldl, hb, if_true, ih, matched_count, List.filter_cons, List.length_cons]
      push_cast
      ring

lemma foldl_sub_matched (c : ℚ) (tl : String) :
    ∀ (ws : List String) (init : ℚ),
      ws.foldl (fun acc w => if str_contains tl w then acc - c else acc) init
        = init - (matched_count ws tl : ℚ) * c := by
  intro ws
  induction ws with
  | nil => intro init; simp [matched_count]
  | cons w rest ih =>
    intro init
    cases hb : str_contains tl w with
    | false => simp [hb, matched_count, List.filter_cons, ih, matched_count]
    | true =>
      simp only [List.foldl, hb, if_true, ih, matched_count, List.filter_cons, List.length_cons]
      push_cast
      ring

/-- Claim C9: sentiment scoring is the pure function that starts at 0,
adds 0.2 per positive keyword occurring (case-insensitively, as a
substring) in the text, subtracts 0.2 per negative keyword, and clamps;
consequently the score always lies in [-1, 1]. -/
theorem analyze_sentiment_bounded (text : String) :
    analyze_sentiment text
      = max (min ((matched_count positive_words (lowerStr text) : ℚ) * (2 / 10)
          - (matched_count negative_words (lowerStr text) : ℚ) * (2 / 10)) 1) (-1)
    ∧ -1 ≤ analyze_sentiment text ∧ analyze_sentiment text ≤ 1 := by
  have hshape : analyze_sentiment text
      = max (min ((matched_count positive_words (lowerStr text) : ℚ) * (2 / 10)
          - (matched_count negative_words (lowerStr text) : ℚ) * (2 / 10)) 1) (-1) := by
    unfold analyze_sentiment
    dsimp only
    rw [foldl_add_matched, foldl_sub_matched, zero_add]
  refine ⟨hshape, ?_, ?_⟩
  · rw [hshape]; exact le_max_right _ _
  · rw [hshape]
    exact max_le (le_trans (min_le_right _ _) le_rfl) (by norm_num)

/-- Counterexample for C6: after ingesting game 3 and then 20 reviews,
`totalReviews` is 20; re-ingesting the same game puts the whole
`game_doc` (with its constant `totalReviews: 0`) under `$set`, lowering
the count back to 0. -/
theorem total_reviews_reset_counterexample :
    ((run_game_ops empty_game_store [.save gEx6 0, .incReviews "3" 20]) "3").map
        (fun s => s.doc.totalReviews) = some 20
    ∧ ((run_game_ops empty_game_store [.save gEx6 0, .incReviews "3" 20, .save gEx6 1]) "3").map
        (fun s => s.doc.totalReviews) = some 0 := by
  decide

lemma apply_game_op_nonneg (store : GameStore) (op : GamePipelineOp)
    (h : ∀ key s, store key = some s → 0 ≤ s.doc.totalReviews) :
    ∀ key s, apply_game_op store op key = some s → 0 ≤ s.doc.totalReviews := by
  intro key s hs
  cases op with
  | save g now =>
    simp only [apply_game_op, save_game] at hs
    split at hs
    · cases hs
      simp [mk_game_doc]
    · exact h key s hs
  | incReviews gid n =>
    simp only [apply_game_op, inc_game_reviews] at hs
    split at hs
    · cases h0 : store key with
      | none => rw [h0] at hs; simp at hs
      | some s0 =>
        rw [h0] at hs
        simp only [Option.map] at hs
        cases hs
        have hn : (0 : Int) ≤ (n : Int) := Int.natCast_nonneg n
        have h1 := h key s0 h0
        show 0 ≤ s0.doc.totalReviews + (n : Int)
        omega
    · exact h key s hs

lemma run_game_ops_nonneg :
    ∀ (ops : List GamePipelineOp) (store : GameStore),
      (∀ key s, store key = some s → 0 ≤ s.doc.totalReviews) →
      ∀ key s, run_game_ops store ops key = some s → 0 ≤ s.doc.totalReviews := by
  intro ops
  induction ops with
  | nil =>
    intro store h key s hs
    exact h key s (by simpa [run_game_ops] using hs)
  | cons op rest ih =>
    intro store h key s hs
    have h' := apply_game_op_nonneg store op h
    exact ih (apply_game_op store op) h' key s (by simpa [run_game_ops] using hs)

/-- Claim C6 amended: the review count of every stored game document is
non-negative after every pipeline operation, and the review-ingestion
`$inc` update never lowers it; re-ingesting a game, however, resets it
to 0 (see the counterexample), so the count is not monotone across all
pipeline operations. -/
theorem total_reviews_nonneg_and_inc_monotone :
    (∀ (ops : List GamePipelineOp) (key : String) (s : StoredGame),
        run_game_ops empty_game_store ops key = some s → 0 ≤ s.doc.totalReviews)
    ∧ (∀ (store : GameStore) (gid : String) (n : Nat) (key : String) (s : StoredGame),
        inc_game_reviews store gid n key = some s →
        ∃ s0, store key = some s0 ∧ s0.doc.totalReviews ≤ s.doc.totalReviews) := by
  constructor
  · intro ops key s hs
    exact run_game_ops_nonneg ops empty_game_store (by intro k s0 h0; cases h0) key s hs
  · intro store gid n key s hs
    simp only [inc_game_reviews] at hs
    split at hs
    · cases h0 : store key with
      | none => rw [h0] at hs; simp at hs
      | some s0 =>
        rw [h0] at hs
        simp only [Option.map] at hs
        cases hs
        refine ⟨s0, rfl, ?_⟩
        have hn : (0 : Int) ≤ (n : Int) := Int.natCast_nonneg n
        show s0.doc.totalReviews ≤ s0.doc.totalReviews + (n : Int)
        omega
    · exact ⟨s, hs, le_refl _⟩

/-- Witness for the amended C6 at a concrete run. -/
theorem total_reviews_nonneg_witness :
    run_game_ops empty_game_store [.save gEx6 5, .incReviews "3" 4] "3"
        = some ⟨{ mk_game_doc gEx6 5 with totalReviews := 4 }, 5⟩
    ∧ 0 ≤ (StoredGame.mk { mk_game_doc gEx6 5 with totalReviews := 4 } 5).doc.totalReviews := by
  have hrun : run_game_ops empty_game_store [.save gEx6 5, .incReviews "3" 4] "3"
      = some ⟨{ mk_game_doc gEx6 5 with totalReviews := 4 }, 5⟩ := by decide
  exact ⟨hrun, total_reviews_nonneg_and_inc_monotone.1 [.save gEx6 5, .incReviews "3" 4] "3" _ hrun⟩

/-- The document-only view of the pipeline state: both MongoDB
collections, with the graph state forgotten. -/
def doc_view (st : SysState) : GameStore × MatchStore :=
  (st.games, st.matchDocs)

lemma ingest_step_doc_view (st1 st2 : SysState) (r : IngestRecord × Nat) (ok1 ok2 : Bool)
    (h : doc_view st1 = doc_view st2) :
    doc_view (ingest_step st1 r ok1) = doc_view (ingest_step st2 r ok2) := by
  have hg : st1.games = st2.games := congrArg Prod.fst h
  have hm : st1.matchDocs = st2.matchDocs := congrArg Prod.snd h
  obtain ⟨ir, now⟩ := r
  cases ir with
  | game g => simp [ingest_step, save_game_full, doc_view, hg, hm]
  | esports m => simp [ingest_step, save_match_full, doc_view, hg, hm]

lemma run_batch_doc_view :
    ∀ (batch : List (IngestRecord × Nat)) (st1 st2 : SysState) (ok1 ok2 : Bool),
      doc_view st1 = doc_view st2 →
      doc_view (run_batch st1 batch ok1) = doc_view (run_batch st2 batch ok2) := by
  intro batch
  induction batch with
  | nil => intro st1 st2 ok1 ok2 h; simpa [run_batch] using h
  | cons r rest ih =>
    intro st1 st2 ok1 ok2 h
    have hstep := ingest_step_doc_view st1 st2 r ok1 ok2 h
    have := ih (ingest_step st1 r ok1) (ingest_step st2 r ok2) ok1 ok2 hstep
    simpa [run_batch] using this

/-- Claim C4: for every batch and every starting state, the final
document-store state is the same in a run where every graph-store call
raises (`graphOk = false`: caught and logged, graph untouched) and in a
run where every graph-store call succeeds — a graph failure neither
prevents nor rolls back any document upsert of the batch. -/
theorem graph_failure_doc_independence (st : SysState) (batch : List (IngestRecord × Nat)) :
    (run_batch st batch false).games = (run_batch st batch true).games
    ∧ (run_batch st batch false).matchDocs = (run_batch st batch true).matchDocs := by
  have h := run_batch_doc_view batch st st false true rfl
  exact ⟨congrArg Prod.fst h, congrArg Prod.snd h⟩

/-- Counterexample for C7: the code stores the provider's flat
tournament `name` ("Worlds Knockout") in both stores; it never reads
the league / series / stage segments, whose composition would be
"LEC-Summer-Finals". -/
theorem tournament_name_not_composed :
    ((sync_tournament_graph empty_graph mEx7).tournamentNodes "9").map TournamentNode.name
        = some "Worlds Knockout"
    ∧ (mk_match_doc mEx7 0).map MatchDoc.tournamentName = some "Worlds Knockout"
    ∧ composed_tournament_name "LEC" "Summer" "Finals" = "LEC-Summer-Finals"
    ∧ ((sync_tournament_graph empty_graph mEx7).tournamentNodes "9").map TournamentNode.name
        ≠ some (composed_tournament_name "LEC" "Summer" "Finals")
    ∧ (mk_match_doc mEx7 0).map MatchDoc.tournamentName
        ≠ some (composed_tournament_name "LEC" "Summer" "Finals") := by
  decide

lemma sync_fold_tournamentNodes (vn tid : String) :
    ∀ (l : List TeamObj) (acc : GraphState),
      (l.foldl (sync_team_step vn tid) acc).tournamentNodes = acc.tournamentNodes := by
  intro l
  induction l with
  | nil => intro acc; rfl
  | cons t rest ih =>
    intro acc
    have hstep : (sync_team_step vn tid acc t).tournamentNodes = acc.tournamentNodes := by
      unfold sync_team_step
      split <;> rfl
    calc (List.foldl (sync_team_step vn tid) acc (t :: rest)).tournamentNodes
        = (List.foldl (sync_team_step vn tid) (sync_team_step vn tid acc t) rest).tournamentNodes := rfl
      _ = (sync_team_step vn tid acc t).tournamentNodes := ih _
      _ = acc.tournamentNodes := hstep

/-- Claim C7 amended: the stored tournament display name is the
provider's tournament `name` field taken verbatim — in the graph node
with an `'Unknown'` default, and in the match document exactly the
provider name (a missing name there aborts the record); no composition
from league, series and stage is performed. -/
theorem tournament_name_verbatim (g : GraphState) (m : MatchData) (t : TournamentObj)
    (v : VideogameObj) (vn : String)
    (h1 : m.tournament = some t) (h2 : m.videogame = some v) (h3 : v.name = some vn) :
    (sync_tournament_graph g m).tournamentNodes (toString t.id)
        = some ⟨t.name.getD "Unknown", vn⟩
    ∧ (∀ (now : Nat) (d : MatchDoc), mk_match_doc m now = some d →
        some d.tournamentName = t.name) := by
  constructor
  · simp only [sync_tournament_graph, h1, h2, h3]
    rw [sync_fold_tournamentNodes]
    simp
  · intro now d hd
    simp only [mk_match_doc, h1, h2, h3] at hd
    cases ht : t.name with
    | none => rw [ht] at hd; simp at hd
    | some tn =>
      rw [ht] at hd
      simp only [Option.some.injEq] at hd
      subst hd
      simp [ht]

/-- Witness for the amended C7 at the concrete record `mEx7`. -/
theorem tournament_name_verbatim_witness :
    mEx7.tournament = some tEx7
    ∧ (sync_tournament_graph empty_graph mEx7).tournamentNodes "9"
        = some ⟨"Worlds Knockout", "LoL"⟩ := by
  have h := tournament_name_verbatim empty_graph mEx7 tEx7 ⟨some "LoL"⟩ "LoL" rfl rfl rfl
  exact ⟨rfl, h.1⟩

lemma step_teamNodes (vn tid : String) (acc : GraphState) (t : TeamObj) (k : String)
    (h : (sync_team_step vn tid acc t).teamNodes k ≠ acc.teamNodes k) :
    idTruthy t.id ∧ k = toString (t.id.getD 0) := by
  unfold sync_team_step at h
  cases hid : idTruthy t.id with
  | false => rw [hid] at h; simp at h
  | true =>
    rw [hid] at h
    refine ⟨rfl, ?_⟩
    by_cases hk : k = toString (t.id.getD 0)
    · exact hk
    · exact absurd (by simp [hk]) h

lemma step_competesIn (vn tid : String) (acc : GraphState) (t : TeamObj) (e : String × String)
    (h1 : e ∈ (sync_team_step vn tid acc t).competesIn) (h2 : e ∉ acc.competesIn) :
    idTruthy t.id ∧ e = (toString (t.id.getD 0), tid) := by
  cases hid : idTruthy t.id with
  | false =>
    have hs : sync_team_step vn tid acc t = acc := by simp [sync_team_step, hid]
    rw [hs] at h1
    exact absurd h1 h2
  | true =>
    have hs : (sync_team_step vn tid acc t).competesIn
        = merge_edge acc.competesIn (toString (t.id.getD 0), tid) := by
      simp [sync_team_step, hid]
    rw [hs] at h1
    refine ⟨rfl, ?_⟩
    simp only [merge_edge] at h1
    split at h1
    · exact absurd h1 h2
    · rcases List.mem_cons.mp h1 with he | he
      · exact he
      · exact absurd he h2

lemma sync_fold_teamNodes (vn tid : String) :
    ∀ (l : List TeamObj) (acc : GraphState) (k : String),
      (l.foldl (sync_team_step vn tid) acc).teamNodes k ≠ acc.teamNodes k →
      ∃ t, t ∈ l ∧ idTruthy t.id ∧ k = toString (t.id.getD 0) := by
  intro l
  induction l with
  | nil => intro acc k h; exact absurd rfl h
  | cons t rest ih =>
    intro acc k h
    rw [List.foldl_cons] at h
    by_cases hstep : (sync_team_step vn tid acc t).teamNodes k = acc.teamNodes k
    · have h' : (rest.foldl (sync_team_step vn tid) (sync_team_step vn tid acc t)).teamNodes k
          ≠ (sync_team_step vn tid acc t).teamNodes k := fun he => h (by rw [he, hstep])
      obtain ⟨t', ht', p⟩ := ih (sync_team_step vn tid acc t) k h'
      exact ⟨t', List.mem_cons_of_mem _ ht', p⟩
    · obtain ⟨hid, hk⟩ := step_teamNodes vn tid acc t k hstep
      exact ⟨t, List.mem_cons_self _ _, hid, hk⟩

lemma sync_fold_competesIn (vn tid : String) :
    ∀ (l : List TeamObj) (acc : GraphState) (e : String × String),
      e ∈ (l.foldl (sync_team_step vn tid) acc).competesIn → e ∉ acc.competesIn →
      ∃ t, t ∈ l ∧ idTruthy t.id ∧ e = (toString (t.id.getD 0), tid) := by
  intro l
  induction l with
  | nil => intro acc e h1 h2; exact absurd h1 h2
  | cons t rest ih =>
    intro acc e h1 h2
    rw [List.foldl_cons] at h1
    by_cases hmem : e ∈ (sync_team_step vn tid acc t).competesIn
    · obtain ⟨hid, he⟩ := step_competesIn vn tid acc t e hmem h2
      exact ⟨t, List.mem_cons_self _ _, hid, he⟩
    · obtain ⟨t', ht', p⟩ := ih (sync_team_step vn tid acc t) e h1 hmem
      exact ⟨t', List.mem_cons_of_mem _ ht', p⟩

lemma sync_graph_changes (g : GraphState) (m : MatchData) :
    (∀ k, (sync_tournament_graph g m).teamNodes k ≠ g.teamNodes k →
        ∃ t, t ∈ m.opponents ∧ idTruthy t.id ∧ k = toString (t.id.getD 0))
    ∧ (∀ e, e ∈ (sync_tournament_graph g m).competesIn → e ∉ g.competesIn →
        ∃ t, t ∈ m.opponents ∧ idTruthy t.id ∧ e.1 = toString (t.id.getD 0)) := by
  cases mt : m.tournament with
  | none =>
    have hs : sync_tournament_graph g m = g := by simp [sync_tournament_graph, mt]
    rw [hs]
    exact ⟨fun k h => absurd rfl h, fun e h1 h2 => absurd h1 h2⟩
  | some t =>
    cases mv : m.videogame with
    | none =>
      have hs : sync_tournament_graph g m = g := by simp [sync_tournament_graph, mt, mv]
      rw [hs]
      exact ⟨fun k h => absurd rfl h, fun e h1 h2 => absurd h1 h2⟩
    | some v =>
      cases hvn : v.name with
      | none =>
        have hs : sync_tournament_graph g m = g := by simp [sync_tournament_graph, mt, mv, hvn]
        rw [hs]
        exact ⟨fun k h => absurd rfl h, fun e h1 h2 => absurd h1 h2⟩
      | some vn =>
        have hs : sync_tournament_graph g m
            = m.opponents.foldl (sync_team_step vn (toString t.id))
                { g with tournamentNodes := fun k =>
                    if k = toString t.id then some ⟨t.name.getD "Unknown", vn⟩
                    else g.tournamentNodes k } := by
          simp [sync_tournament_graph, mt, mv, hvn]
        rw [hs]
        constructor
        · intro k h
          exact sync_fold_teamNodes vn (toString t.id) m.opponents _ k h
        · intro e h1 h2
          obtain ⟨t', ht', hid, he⟩ := sync_fold_competesIn vn (toString t.id) m.opponents _ e h1 h2
          exact ⟨t', ht', hid, by rw [he]⟩

/-- Claim C8: a match with fewer than two opponents stores the absent
team with empty-string id and display name "TBD"; the graph projection
merges `Team` nodes only for opponents whose id is resolvable (truthy)
from the current record, and a `COMPETES_IN` edge is only ever added
for such an opponent (an unresolvable endpoint is skipped, never
deferred: the state carries no pending work). -/
theorem absent_team_tbd_and_graph_skip (g : GraphState) (m : MatchData) (now : Nat) (d : MatchDoc)
    (hd : mk_match_doc m now = some d) (hlen : m.opponents.length < 2) :
    (m.opponents = [] → d.teamAId = "" ∧ d.teamAName = "TBD")
    ∧ d.teamBId = "" ∧ d.teamBName = "TBD"
    ∧ (∀ k, (sync_tournament_graph g m).teamNodes k ≠ g.teamNodes k →
        ∃ t, t ∈ m.opponents ∧ idTruthy t.id ∧ k = toString (t.id.getD 0))
    ∧ (∀ e, e ∈ (sync_tournament_graph g m).competesIn → e ∉ g.competesIn →
        ∃ t, t ∈ m.opponents ∧ idTruthy t.id ∧ e.1 = toString (t.id.getD 0)) := by
  have hb : m.opponents[1]? = none := List.getElem?_eq_none (by omega)
  simp only [mk_match_doc] at hd
  cases htt : (match m.tournament with | some t => t.name | none => some "Unknown") with
  | none => rw [htt] at hd; simp at hd
  | some tn =>
    cases hvv : (match m.videogame with | some v => v.name | none => some "Unknown") with
    | none => rw [htt, hvv] at hd; simp at hd
    | some gt =>
      rw [htt, hvv] at hd
      simp only [Option.some.injEq] at hd
      subst hd
      refine ⟨?_, ?_, ?_, (sync_graph_changes g m).1, (sync_graph_changes g m).2⟩
      · intro ho
        constructor
        · simp [ho]
        · simp [ho]
      · simp [hb]
      · simp [hb]

/-- Witness for C8 at the one-opponent record `mEx8`. -/
theorem absent_team_tbd_witness :
    mk_match_doc mEx8 3 = some dEx8 ∧ mEx8.opponents.length < 2
    ∧ dEx8.teamBId = "" ∧ dEx8.teamBName = "TBD" := by
  have hmk : mk_match_doc mEx8 3 = some dEx8 := by decide
  have h := absent_team_tbd_and_graph_skip empty_graph mEx8 3 dEx8 hmk (by decide)
  exact ⟨hmk, by decide, h.2.1, h.2.2.1⟩

lemma mem_maxIdLen : ∀ (store : List MatchDoc) (d : MatchDoc), d ∈ store →
    d._id.length ≤ maxIdLen store := by
  intro store
  induction store with
  | nil => intro d h; cases h
  | cons a rest ih =>
    intro d h
    rcases List.mem_cons.mp h with he | h'
    · subst he
      show d._id.length ≤ max d._id.length (maxIdLen rest)
      exact le_max_left _ _
    · exact le_trans (ih d h') (le_max_right _ _)

lemma synth_id_len (store : List MatchDoc) (k : Nat) :
    (mk_synth_id store k).length = maxIdLen store + 1 + k := by
  simp [mk_synth_id]

lemma countFinished_append (l1 l2 : List MatchDoc) :
    countFinished (l1 ++ l2) = countFinished l1 + countFinished l2 := by
  simp [countFinished, List.filter_append]

lemma countFinished_synths (store : List MatchDoc) (rand : Nat → Bool) (ri : Nat → Nat)
    (now n : Nat) :
    countFinished ((List.range n).map (mk_synth_match store rand ri now)) = n := by
  unfold countFinished
  rw [List.filter_eq_self.mpr]
  · simp
  · intro d hd
    obtain ⟨k, hk, he⟩ := List.mem_map.mp hd
    subst he
    simp [mk_synth_match]

/-- Claim C3 (spec-modelled synthesizer): if the store holds fewer
FINISHED matches than the configured minimum, then after synthesis the
store holds at least the minimum number of FINISHED matches, and every
injected match is FINISHED, has a winner equal to one of its two teams,
and has an id distinct from every pre-existing record's id. -/
theorem ensure_minimum_matches_spec (store : List MatchDoc) (minimum : Nat) (rand : Nat → Bool)
    (randInstant : Nat → Nat) (now : Nat) (h : countFinished store < minimum) :
    minimum ≤ countFinished (ensure_minimum_matches store minimum rand randInstant now)
    ∧ ∀ d, d ∈ ensure_minimum_matches store minimum rand randInstant now → d ∉ store →
        (d.status = "FINISHED"
         ∧ (d.winnerId = some d.teamAId ∨ d.winnerId = some d.teamBId)
         ∧ ∀ d0, d0 ∈ store → d._id ≠ d0._id) := by
  have hens : ensure_minimum_matches store minimum rand randInstant now
      = store ++ (List.range (minimum - countFinished store)).map
          (mk_synth_match store rand randInstant now) := by
    simp [ensure_minimum_matches, h]
  constructor
  · rw [hens, countFinished_append, countFinished_synths]
    omega
  · intro d hd hns
    rw [hens] at hd
    rcases List.mem_append.mp hd with h1 | h1
    · exact absurd h1 hns
    · obtain ⟨k, hk, he⟩ := List.mem_map.mp h1
      subst he
      refine ⟨rfl, ?_, ?_⟩
      · cases hr : rand k with
        | true => left; simp [mk_synth_match, hr]
        | false => right; simp [mk_synth_match, hr]
      · intro d0 h0 heq
        have hlen0 := mem_maxIdLen store d0 h0
        have hlen : (mk_synth_match store rand randInstant now k)._id.length
            = maxIdLen store + 1 + k := synth_id_len store k
        rw [heq] at hlen
        omega

/-- Witness for C3: an empty store with a minimum of 5. -/
theorem ensure_minimum_matches_spec_witness :
    countFinished ([] : List MatchDoc) < 5
    ∧ (5 ≤ countFinished (ensure_minimum_matches [] 5 (fun _ => true) (fun _ => 0) 1000)
       ∧ ∀ d, d ∈ ensure_minimum_matches [] 5 (fun _ => true) (fun _ => 0) 1000 →
           d ∉ ([] : List MatchDoc) →
           (d.status = "FINISHED"
            ∧ (d.winnerId = some d.teamAId ∨ d.winnerId = some d.teamBId)
            ∧ ∀ d0, d0 ∈ ([] : List MatchDoc) → d._id ≠ d0._id)) :=
  ⟨by decide, ensure_minimum_matches_spec [] 5 (fun _ => true) (fun _ => 0) 1000 (by decide)⟩
